import Mathlib

/-!
Verification of the multi-stage scraping pipeline of the
food_nutrition_org_scraper repository.

The development shallowly embeds the Python scraping subsystem
(`scrapers/base_scraper.py`, `scrapers/nutrition_scraper.py`,
`scrapers/menu_item_scraper.py`, `scrapers/restaurant_scraper.py`,
`main.py`, `src/utils.py`) into Lean:

* Python dicts become insertion-ordered association lists over a JSON-like
  value type `JVal`; `dictGet`/`dictSet`/`dictDel`/`dictMerge` mirror
  `d[k]`, `d.get`, `del d[k]` and `{**a, **b}` for the unique-key dicts the
  pipeline manipulates.
* Parsed HTML documents become a record `Doc` holding exactly the data the
  extractors read through their fixed CSS selectors: every `String` stored in
  a `Doc` is the text that the corresponding `get_text` call of the source
  would return (or a raw attribute / direct text-node value where the source
  reads one).
* The HTTP layer is a deterministic oracle `fetch : String → Except String Doc`
  standing for `BaseScraper.fetch_page` (`Except.error` = `NetworkException`
  after the retry budget); `fetch_page` itself is modelled separately from a
  list of per-attempt outcomes so its retry/backoff/stats behaviour can be
  proved.  Wall-clock effects (`time.sleep`, the rate limiter, timestamps)
  are outside the embedding; the backoff amounts slept between attempts are
  returned as data.
* Python string helpers (`str.strip`, `str.lower`, `str.replace`,
  `str.startswith`, substring `in`) are re-implemented structurally on
  character lists so that every definition evaluates inside the kernel;
  `str.isalnum` is modelled by ASCII `Char.isAlphanum`, which agrees with
  Python on the ASCII texts the site serves.
-/

namespace FoodScraper

/-- Whitespace characters stripped by Python `str.strip()`. -/
def isPySpace (c : Char) : Bool :=
  c = ' ' ∨ c = '\t' ∨ c = '\n' ∨ c = '\x0d' ∨ c = '\x0b' ∨ c = '\x0c'

/-- Python `str.strip()`: drop leading and trailing whitespace. -/
def pyStrip (s : String) : String :=
  String.mk (((s.data.dropWhile isPySpace).reverse.dropWhile isPySpace).reverse)

/-- Python `str.lower()` (ASCII case folding). -/
def pyLower (s : String) : String :=
  String.mk (s.data.map Char.toLower)

/-- Does `pat` occur at the head of the character list? -/
def leadsWith : List Char → List Char → Bool
  | [], _ => true
  | _ :: _, [] => false
  | p :: ps, c :: cs => p = c && leadsWith ps cs

/-- Python `str.startswith(pat)`. -/
def pyStartsWith (s pat : String) : Bool :=
  leadsWith pat.data s.data

/-- Does `pat` occur as a contiguous sublist? Models Python `pat in s`. -/
def lcContainsSub (pat : List Char) : List Char → Bool
  | [] => leadsWith pat []
  | c :: rest => leadsWith pat (c :: rest) || lcContainsSub pat rest

/-- Python `pat in s` substring test. -/
def pyContains (s pat : String) : Bool :=
  lcContainsSub pat.data s.data

/-- Replace every (left-to-right, non-overlapping) occurrence of `pat` by
`repl`, as Python `str.replace` does for a non-empty pattern.  The `Nat`
argument is fuel bounding the number of steps (one character is consumed per
step), which keeps the recursion structural. -/
def lcReplaceGo (pat repl : List Char) : Nat → List Char → List Char
  | 0, l => l
  | _ + 1, [] => []
  | fuel + 1, c :: rest =>
    if pat ≠ [] ∧ leadsWith pat (c :: rest) then
      repl ++ lcReplaceGo pat repl fuel (List.drop (pat.length - 1) rest)
    else
      c :: lcReplaceGo pat repl fuel rest

/-- Python `s.replace(pat, repl)` for the non-empty patterns the code uses. -/
def pyReplace (s pat repl : String) : String :=
  String.mk (lcReplaceGo pat.data repl.data s.data.length s.data)

/-- JSON-like values: the shapes flowing through the pipeline dictionaries
(strings, `None`, lists, nested dicts). -/
inductive JVal where
  | null : JVal
  | str : String → JVal
  | list : List JVal → JVal
  | obj : List (String × JVal) → JVal

/-- A Python dict with string keys, as an insertion-ordered association list
(the pipeline only ever builds dicts with pairwise-distinct keys). -/
abbrev Obj := List (String × JVal)

/-- Lookup, Python `d.get(k)` / `k in d`. -/
def dictGet {α : Type} (k : String) : List (String × α) → Option α
  | [] => none
  | (k', v) :: rest => if k' = k then some v else dictGet k rest

/-- Python `d.get(k, default)`. -/
def dictGetD {α : Type} (d : List (String × α)) (k : String) (v₀ : α) : α :=
  (dictGet k d).getD v₀

/-- Python `d[k] = v`: overwrite in place if the key exists, else append. -/
def dictSet {α : Type} (k : String) (v : α) : List (String × α) → List (String × α)
  | [] => [(k, v)]
  | (k', v') :: rest => if k' = k then (k, v) :: rest else (k', v') :: dictSet k v rest

/-- Python `del d[k]` (guarded by `k in d`, so deleting a missing key is a
no-op here, matching the guarded use in `main.py`). -/
def dictDel {α : Type} (d : List (String × α)) (k : String) : List (String × α) :=
  d.filter (fun p => p.1 ≠ k)

/-- Python `list(d.keys())`. -/
def dictKeys {α : Type} (d : List (String × α)) : List String :=
  d.map (·.1)

/-- Python dict merge `{**a, **b}`: start from `a`, then write every entry of
`b` (so `b` wins on key collision). -/
def dictMerge {α : Type} (a b : List (String × α)) : List (String × α) :=
  b.foldl (fun acc p => dictSet p.1 p.2 acc) a

/-- String field access with Python-truthiness default: `d.get(k, "")` for the
string-valued fields the pipeline reads. -/
def getStr (d : Obj) (k : String) : String :=
  match dictGet k d with
  | some (JVal.str s) => s
  | _ => ""

/-- List field access: `d.get(k, [])` for the list-valued fields. -/
def getList (d : Obj) (k : String) : List JVal :=
  match dictGet k d with
  | some (JVal.list l) => l
  | _ => []

/-- View a value as a dict (`dict(item)` on the dict values the pipeline
iterates). -/
def toObj : JVal → Obj
  | JVal.obj fields => fields
  | _ => []

/-- One `<a href=...>` element: its rendered text and its `href` attribute. -/
structure Anchor where
  text : String := ""
  href : String := ""

/-- One `<tr>` of a nutrition table: the text of its `<th>` (if a header cell
element is present) and the texts of its `<td>` cells, as
`get_text(" ", strip=True)` returns them. -/
structure NRow where
  th : Option String := none
  tds : List String := []

/-- One `.col-12` column of the allergen section: the text of its `<strong>`
header (if present, `get_text(strip=True)`) and the texts of its `.dot`
items. -/
structure AllergenCol where
  strong : Option String := none
  dots : List String := []

/-- The `#allergens` section: its columns and the texts of its `<p>`
paragraphs. -/
structure AllergenSection where
  cols : List AllergenCol := []
  paragraphs : List String := []

/-- One `<a href>` inside a category item list: its first direct text node
(raw, if one exists), its full `get_text(" ", strip=True)` text, and its
`href`. -/
structure ItemAnchor where
  directText : Option String := none
  fullText : String := ""
  href : String := ""

/-- One `div.category` block of a restaurant menu page: the heading text (if
the `h2` heading element is present) and the item anchors inside the block's
item list. -/
structure CatBlock where
  heading : Option String := none
  anchors : List ItemAnchor := []

/-- A parsed HTML document, restricted to the data the scrapers read through
their fixed selectors.  `none` / `[]` mean the selector did not match. -/
structure Doc where
  h1 : Option String := none
  titleTag : Option String := none
  nutritionTable : Option (List NRow) := none
  dropdownMenu : Option (List Anchor) := none
  allergenSection : Option AllergenSection := none
  ingredients2 : Option String := none
  itemPhotoSrc : Option String := none
  contentImgSrcs : List String := []
  logoFloatSrc : Option String := none
  categoryBlocks : List CatBlock := []

/-- `urllib.parse.urljoin` restricted to the href shapes the site serves:
absolute URLs pass through, anything else is resolved against the base. -/
def urljoin (base url : String) : String :=
  if pyStartsWith url "http://" ∨ pyStartsWith url "https://" then url else base ++ url

/-- `ScraperStats` of `base_scraper.py`, restricted to its counters (the
start/end wall-clock timestamps are outside the embedding). -/
structure ScraperStats where
  total_requests : Nat := 0
  successful_requests : Nat := 0
  failed_requests : Nat := 0
  total_retries : Nat := 0
deriving DecidableEq

/-- `ScraperStats.record_success`. -/
def ScraperStats.record_success (s : ScraperStats) : ScraperStats :=
  { s with total_requests := s.total_requests + 1,
           successful_requests := s.successful_requests + 1 }

/-- `ScraperStats.record_failure`. -/
def ScraperStats.record_failure (s : ScraperStats) : ScraperStats :=
  { s with total_requests := s.total_requests + 1,
           failed_requests := s.failed_requests + 1 }

/-- `ScraperStats.record_retry`. -/
def ScraperStats.record_retry (s : ScraperStats) : ScraperStats :=
  { s with total_retries := s.total_retries + 1 }

/-- What one attempt of the `fetch_page` loop body observes: either the GET
succeeded with a 2xx status and the body parsed to a document, or it raised
(non-2xx status or transport failure) with the given cause. -/
inductive AttemptOutcome where
  | ok (doc : Doc) : AttemptOutcome
  | fail (err : String) : AttemptOutcome

/-- The `for attempt in range(max_retries)` loop of
`BaseScraper.fetch_page`, driven by the list of per-attempt outcomes (one
entry per loop iteration, so the list length is `max_retries`).  Returns the
result (`Except.error` = the raised `NetworkException`, carrying the last
cause), the updated stats, and the list of back-off amounts slept between
attempts (`retry_delay * 2 ^ attempt` after failed attempt `attempt`, no
sleep after the final attempt).  The `[]` case is unreachable for
`max_retries ≥ 1`. -/
def fetchLoop (d : ℚ) (attempt : Nat) (st : ScraperStats) :
    List AttemptOutcome → Except String Doc × ScraperStats × List ℚ
  | [] => (Except.error "", st, [])
  | AttemptOutcome.ok doc :: _ => (Except.ok doc, st.record_success, [])
  | [AttemptOutcome.fail e] => (Except.error e, st.record_retry.record_failure, [])
  | AttemptOutcome.fail _ :: next :: rest =>
    let out := fetchLoop d (attempt + 1) st.record_retry (next :: rest)
    (out.1, out.2.1, d * 2 ^ attempt :: out.2.2)

/-- `BaseScraper.fetch_page` with fresh stats: run the attempt loop from
attempt 0 with all counters at zero. -/
def fetch_page (d : ℚ) (outcomes : List AttemptOutcome) :
    Except String Doc × ScraperStats × List ℚ :=
  fetchLoop d 0 {} outcomes

/-- Collapse every run of consecutive underscores to a single underscore: the
fixpoint of the `while "__" in cleaned: cleaned = cleaned.replace("__", "_")`
loop of `NutritionScraper._to_snake_case`. -/
def collapseUnd : List Char → List Char
  | [] => []
  | c :: rest =>
    let tailC := collapseUnd rest
    if c = '_' then
      match tailC with
      | '_' :: _ => tailC
      | _ => c :: tailC
    else c :: tailC

/-- Python `s.strip("_")`. -/
def stripUnd (l : List Char) : List Char :=
  ((l.dropWhile (· = '_')).reverse.dropWhile (· = '_')).reverse

/-- `NutritionScraper._to_snake_case`: strip and lower the text, replace every
non-alphanumeric character by an underscore, collapse runs of underscores,
strip leading/trailing underscores. -/
def toSnakeCase (text : String) : String :=
  String.mk (stripUnd (collapseUnd
    ((pyLower (pyStrip text)).data.map (fun ch => if ch.isAlphanum then ch else '_'))))

/-- Key/value cell selection for one nutrition-table row
(`extract_nutrition_table` lines 86-103): with a header cell and at least one
data cell, key = header text and value = first data cell; without a header
cell but with at least two data cells, key = first cell and value = second
cell (also when a third, percentage, cell is present). -/
def rowKeyValue (row : NRow) : Option String × Option String :=
  match row.th, row.tds with
  | some thText, td0 :: _ => (some thText, some td0)
  | none, td0 :: td1 :: _ => (some td0, some td1)
  | _, _ => (none, none)

/-- Does the key text start with one of the discarded non-data headers? -/
def nKeyBanned (k : String) : Bool :=
  pyStartsWith (pyLower k) "amount per serving" ∨
  pyStartsWith (pyLower k) "% daily value" ∨
  pyStartsWith (pyLower k) "percent daily"

/-- The entry one table row contributes to the nutrition dict (`none` when
the row is skipped): the key must be non-empty and not a discarded header,
the stripped value must be non-empty and not a placeholder; the emitted key
is snake-cased and the value stripped. -/
def rowEntry (row : NRow) : Option (String × String) :=
  match rowKeyValue row with
  | (some key_text, value_text) =>
    if key_text ≠ "" ∧ ¬ nKeyBanned key_text then
      match value_text with
      | some v =>
        if v ≠ "" ∧ pyStrip v ≠ "" ∧ pyStrip v ∉ ["", "?", "&nbsp;", "-"] then
          some (toSnakeCase key_text, pyStrip v)
        else none
      | none => none
    else none
  | (none, _) => none

/-- Write one row's contribution (if any) into the nutrition dict. -/
def nutritionRowStep (nut : List (String × String)) (row : NRow) : List (String × String) :=
  match rowEntry row with
  | some (k, v) => dictSet k v nut
  | none => nut

/-- Fold the rows of the located nutrition table into the nutrition dict. -/
def nutritionFromRows (rows : List NRow) : List (String × String) :=
  rows.foldl nutritionRowStep []

/-- `NutritionScraper.extract_nutrition_table`: empty when none of the three
table selectors matched, else the row fold. -/
def extract_nutrition_table (doc : Doc) : List (String × String) :=
  match doc.nutritionTable with
  | some rows => nutritionFromRows rows
  | none => []

/-- `ScrapedAllergens` of `config/models.py` (all fields default empty). -/
structure ScrapedAllergens where
  contains : List String := []
  does_not_contain : List String := []
  unknown : List String := []
  allergy_information : String := ""
deriving DecidableEq

/-- The condition under which `process_menu_item` lets a variant's allergens
overwrite the aggregate: at least one of the three category lists is
non-empty (`allergens.contains or allergens.does_not_contain or
allergens.unknown`). -/
def allergensListNonEmpty (a : ScrapedAllergens) : Bool :=
  a.contains ≠ [] ∨ a.does_not_contain ≠ [] ∨ a.unknown ≠ []

/-- Python `"aren't sure"` (the apostrophe written as an escape). -/
def arentSure : String := "aren\x27t sure"

/-- One `.col-12` column of the allergen section, classified by its `strong`
header into the matching bucket of `extract_allergens` (columns without a
header are skipped). -/
def allergenColStep (acc : ScrapedAllergens) (col : AllergenCol) : ScrapedAllergens :=
  match col.strong with
  | none => acc
  | some h =>
    let ht := pyLower h
    let lst := col.dots.filter (· ≠ "")
    if pyContains ht "contains" ∧ ¬ pyContains ht "not" ∧ ¬ pyContains ht "may" then
      { acc with contains := lst }
    else if pyContains ht "does not contain" then
      { acc with does_not_contain := lst }
    else if pyContains ht "unknown" ∨ pyContains ht arentSure then
      { acc with unknown := lst }
    else acc

/-- One paragraph of the allergen section: capture it as the free-text
allergy information when it mentions allergy/allergen (last match wins, as in
the source's loop). -/
def allergyInfoStep (acc : ScrapedAllergens) (ptext : String) : ScrapedAllergens :=
  if ptext ≠ "" ∧ (pyContains (pyLower ptext) "allergy" ∨ pyContains (pyLower ptext) "allergen") then
    { acc with allergy_information := ptext }
  else acc

/-- `NutritionScraper.extract_allergens`. -/
def extract_allergens (doc : Doc) : ScrapedAllergens :=
  match doc.allergenSection with
  | none => {}
  | some sec => sec.paragraphs.foldl allergyInfoStep (sec.cols.foldl allergenColStep {})

/-- `NutritionScraper.extract_title`: prefer the page `h1`, fall back to the
`title` tag, else empty. -/
def extract_title (doc : Doc) : String :=
  match doc.h1 with
  | some t => t
  | none =>
    match doc.titleTag with
    | some t => t
    | none => ""

/-- A serving-size option from the dropdown menu: display text and absolute
URL. -/
structure DropOption where
  title : String
  url : String

/-- Remove duplicate options by URL while preserving order
(`extract_dropdown_options` lines 221-227), `seen` being the set of URLs
already kept. -/
def dedupByUrl : List DropOption → List String → List DropOption
  | [], _ => []
  | o :: rest, seen =>
    if o.url ∈ seen then dedupByUrl rest seen
    else o :: dedupByUrl rest (o.url :: seen)

/-- `NutritionScraper.extract_dropdown_options`: empty when no
`div.dropdown-menu` is present; else each `a[href]` option yields its text
and joined URL, deduplicated by URL. -/
def extract_dropdown_options (base : String) (doc : Doc) : List DropOption :=
  match doc.dropdownMenu with
  | none => []
  | some anchors =>
    dedupByUrl (anchors.map (fun a => ⟨a.text, urljoin base a.href⟩)) []

/-- `NutritionScraper.extract_ingredients`: the text of `#ingredients2`, or
empty. -/
def extract_ingredients (doc : Doc) : String :=
  match doc.ingredients2 with
  | some t => t
  | none => ""

/-- First content-column image that is neither a logo nor an icon
(`extract_item_image`, try 2). -/
def firstContentImg : List String → Option String
  | [] => none
  | src :: rest =>
    if src ≠ "" ∧ ¬ pyContains src "/logos/" ∧ ¬ pyContains src "/icons/" then some src
    else firstContentImg rest

/-- `NutritionScraper.extract_item_image`: prefer an explicit
`/item-photos/` image, else scan the content columns, else `none`. -/
def extract_item_image (base : String) (doc : Doc) : Option String :=
  match doc.itemPhotoSrc with
  | some src =>
    if src ≠ "" then some (urljoin base src)
    else (firstContentImg doc.contentImgSrcs).map (urljoin base)
  | none => (firstContentImg doc.contentImgSrcs).map (urljoin base)

/-- `ScrapedServingSize` of `config/models.py`; `nutrition` keeps the raw
scraped dict that `ScrapedNutrition(**nutrition_dict)` wraps (the model
allows arbitrary extra keys). -/
structure ScrapedServingSize where
  size_label : String
  nutrition : List (String × String)

/-- The pure part of `extract_item_nutrition_data` once the page is fetched:
title with fallback, nutrition table, allergens, ingredients, image, and the
serving-size model whose label falls back to the title when the given label
is empty. -/
def itemPageData (base : String) (doc : Doc) (size_label fallback_title : String) :
    ScrapedServingSize × ScrapedAllergens × String × Option String :=
  let title := if extract_title doc = "" then fallback_title else extract_title doc
  ({ size_label := if size_label = "" then title else size_label,
     nutrition := extract_nutrition_table doc },
   extract_allergens doc, extract_ingredients doc, extract_item_image base doc)

/-- `NutritionScraper.extract_item_nutrition_data`: fetch the variant page
(propagating a fetch failure) and extract its data. -/
def extract_item_nutrition_data (base : String) (fetch : String → Except String Doc)
    (item_url size_label fallback_title : String) :
    Except String (ScrapedServingSize × ScrapedAllergens × String × Option String) :=
  match fetch item_url with
  | Except.error e => Except.error e
  | Except.ok doc => Except.ok (itemPageData base doc size_label fallback_title)

/-- Serialize a list of strings. -/
def strListJ (l : List String) : JVal :=
  JVal.list (l.map JVal.str)

/-- Serialize a nutrition dict. -/
def nutritionJ (nut : List (String × String)) : JVal :=
  JVal.obj (nut.map (fun p => (p.1, JVal.str p.2)))

/-- `ScrapedAllergens.dict()`. -/
def allergensJ (a : ScrapedAllergens) : JVal :=
  JVal.obj
    [("contains", strListJ a.contains),
     ("does_not_contain", strListJ a.does_not_contain),
     ("unknown", strListJ a.unknown),
     ("allergy_information", JVal.str a.allergy_information)]

/-- An optional string as a JSON value (`None` becomes `null`). -/
def optStrJ : Option String → JVal
  | some s => JVal.str s
  | none => JVal.null

/-- `serving_size.dict()` with the `image_url` key added, as built in
`process_menu_item` (the `ScrapedNutrition` fields left at their `None`
defaults are elided; only the scraped entries are kept). -/
def servingJ (sv : ScrapedServingSize) (img : Option String) : JVal :=
  JVal.obj
    [("size_label", JVal.str sv.size_label),
     ("nutrition", nutritionJ sv.nutrition),
     ("image_url", optStrJ img)]

/-- The per-option loop of the multi-serving branch of `process_menu_item`:
accumulate the serving dicts in order and aggregate allergens (overwrite when
one of the three lists is non-empty) and ingredients (overwrite when
non-empty); a variant fetch failure propagates. -/
def processVariants (base : String) (fetch : String → Except String Doc) (item_name : String) :
    List DropOption → List JVal → ScrapedAllergens → String →
    Except String (List JVal × ScrapedAllergens × String)
  | [], svs, aggA, aggI => Except.ok (svs, aggA, aggI)
  | opt :: rest, svs, aggA, aggI =>
    match extract_item_nutrition_data base fetch opt.url opt.title item_name with
    | Except.error e => Except.error e
    | Except.ok (sv, alls, ings, img) =>
      processVariants base fetch item_name rest
        (svs ++ [servingJ sv img])
        (if allergensListNonEmpty alls then alls else aggA)
        (if ings ≠ "" then ings else aggI)

/-- `NutritionScraper.process_menu_item` before its `with_error_handling`
wrapper: items without a URL are returned unchanged; otherwise the item page
is fetched, the dropdown options (if any) or the single implicit serving are
processed, and the `nutritional_values`, `allergens` and `ingredients` keys
are written onto the item. -/
def process_menu_item_inner (base : String) (fetch : String → Except String Doc)
    (item : Obj) : Except String Obj :=
  let item_url := getStr item "url"
  let item_name := getStr item "name"
  if item_url = "" then Except.ok item
  else
    match fetch item_url with
    | Except.error e => Except.error e
    | Except.ok doc =>
      match extract_dropdown_options base doc with
      | [] =>
        match extract_item_nutrition_data base fetch item_url "1 serving" item_name with
        | Except.error e => Except.error e
        | Except.ok (sv, alls, ings, img) =>
          Except.ok (dictSet "ingredients" (JVal.str ings)
            (dictSet "allergens" (allergensJ alls)
              (dictSet "nutritional_values"
                (JVal.obj [("serving_sizes", JVal.list [servingJ sv img])]) item)))
      | opt :: opts =>
        match processVariants base fetch item_name (opt :: opts) [] {} "" with
        | Except.error e => Except.error e
        | Except.ok (svs, aggA, aggI) =>
          Except.ok (dictSet "ingredients" (JVal.str aggI)
            (dictSet "allergens" (allergensJ aggA)
              (dictSet "nutritional_values"
                (JVal.obj [("serving_sizes", JVal.list svs)]) item)))

/-- `NutritionScraper.process_menu_item` as decorated by
`with_error_handling(default_return={})`: any exception raised inside is
swallowed and the empty dict is returned instead. -/
def process_menu_item (base : String) (fetch : String → Except String Doc)
    (item : Obj) : Obj :=
  match process_menu_item_inner base fetch item with
  | Except.ok it => it
  | Except.error _ => []

/-- One restaurant's entry built by `NutritionScraper.scrape`: the items are
processed through the decorated `process_menu_item`, which never raises, so
the `try`/`except` placeholder branch of `scrape` (lines 438-446) is
unreachable and every processed item is appended as returned. -/
def nutritionScrapeEntry (base : String) (fetch : String → Except String Doc)
    (info : JVal) : JVal :=
  let infoD := toObj info
  let processed := (getList infoD "items").map
    (fun j => JVal.obj (process_menu_item base fetch (toObj j)))
  JVal.obj
    [("url", dictGetD infoD "url" (JVal.str "")),
     ("restaurant_logo", dictGetD infoD "restaurant_logo" (JVal.str "")),
     ("items", JVal.list processed)]

/-- One iteration of the restaurant loop of `NutritionScraper.scrape`. -/
def nutritionScrapeStep (base : String) (fetch : String → Except String Doc)
    (enriched : Obj) (p : String × JVal) : Obj :=
  dictSet p.1 (nutritionScrapeEntry base fetch p.2) enriched

/-- `NutritionScraper.scrape`: enrich every restaurant of the menu mapping in
order. -/
def nutritionScrape (base : String) (fetch : String → Except String Doc)
    (menu_data : Obj) : Obj :=
  menu_data.foldl (nutritionScrapeStep base fetch) []

/-- `MenuItemScraper.extract_logo_url`: the `img.logo_float` source joined
against the base, or empty when absent. -/
def extract_logo_url (base : String) (doc : Doc) : String :=
  match doc.logoFloatSrc with
  | some src => if src ≠ "" then urljoin base src else ""
  | none => ""

/-- Item-name policy shared by the extractors: prefer the first direct text
node (stripped) when it is non-empty, else the full anchor text. -/
def anchorName (a : ItemAnchor) : String :=
  match a.directText with
  | some raw => if raw ≠ "" then pyStrip raw else a.fullText
  | none => a.fullText

/-- `MenuItemRef`: one extracted menu item. -/
structure MenuItemRef where
  name : String
  url : String
  category : String

/-- Items of one category block: heading text (or `"Uncategorized"` when the
heading element is absent) tagged onto each anchor. -/
def catBlockItems (base : String) (cb : CatBlock) : List MenuItemRef :=
  let category_name :=
    match cb.heading with
    | some t => t
    | none => "Uncategorized"
  cb.anchors.map (fun a => ⟨anchorName a, urljoin base a.href, category_name⟩)

/-- Remove duplicate items by URL across the whole page, preserving
first-seen order. -/
def dedupItemsByUrl : List MenuItemRef → List String → List MenuItemRef
  | [], _ => []
  | it :: rest, seen =>
    if it.url ∈ seen then dedupItemsByUrl rest seen
    else it :: dedupItemsByUrl rest (it.url :: seen)

/-- `MenuItemScraper.extract_menu_items`. -/
def extract_menu_items (base : String) (doc : Doc) : List MenuItemRef :=
  dedupItemsByUrl ((doc.categoryBlocks.map (catBlockItems base)).foldr (· ++ ·) []) []

/-- A menu item as stored in the stage-2 output. -/
def itemRefJ (it : MenuItemRef) : JVal :=
  JVal.obj
    [("name", JVal.str it.name),
     ("url", JVal.str it.url),
     ("category", JVal.str it.category)]

/-- The entry `MenuItemScraper.scrape` stores for one restaurant: on a
successful fetch the scraped logo and items, on a raised exception (the
fetch of the restaurant page failing) the placeholder
`{url, restaurant_logo: "", items: [], error: message}`. -/
def menuEntryFor (base : String) (fetch : String → Except String Doc)
    (url : String) : JVal :=
  match fetch url with
  | Except.ok doc =>
    JVal.obj
      [("url", JVal.str url),
       ("restaurant_logo", JVal.str (extract_logo_url base doc)),
       ("items", JVal.list ((extract_menu_items base doc).map itemRefJ))]
  | Except.error e =>
    JVal.obj
      [("url", JVal.str url),
       ("restaurant_logo", JVal.str ""),
       ("items", JVal.list []),
       ("error", JVal.str e)]

/-- One iteration of the `MenuItemScraper.scrape` loop: entries missing a
name or URL are skipped, everything else is recorded under its name. -/
def menuScrapeStep (base : String) (fetch : String → Except String Doc)
    (idx : Obj) (r : Obj) : Obj :=
  let name := getStr r "name"
  let url := getStr r "url"
  if name = "" ∨ url = "" then idx
  else dictSet name (menuEntryFor base fetch url) idx

/-- `MenuItemScraper.scrape`. -/
def menuScrape (base : String) (fetch : String → Except String Doc)
    (restaurants : List Obj) : Obj :=
  restaurants.foldl (menuScrapeStep base fetch) []

/-- The `div.logo_box_text` label of one restaurant card: its first direct
text node (raw, if one exists) and its full `get_text(" ", strip=True)`
text. -/
structure LogoBox where
  directText : Option String := none
  fullText : String := ""

/-- One `.filter_target` restaurant card: the `href` of its first anchor (if
an anchor with an href exists) and its label element (if present). -/
structure RestCard where
  href : Option String := none
  label : Option LogoBox := none

/-- The name `RestaurantScraper.extract_restaurant_cards` derives from a
label: the stripped first direct text node when that node is non-empty, else
the full text with every occurrence of `" Nutrition"` removed and the result
stripped (`none` when the full text is empty). -/
def labelName (lb : LogoBox) : Option String :=
  match lb.directText with
  | some raw =>
    if raw ≠ "" then some (pyStrip raw)
    else if lb.fullText ≠ "" then some (pyStrip (pyReplace lb.fullText " Nutrition" "")) else none
  | none =>
    if lb.fullText ≠ "" then some (pyStrip (pyReplace lb.fullText " Nutrition" "")) else none

/-- One iteration of the card loop of `extract_restaurant_cards`: cards
without an anchor or without a usable name are skipped, the rest are
deduplicated by absolute URL into `results_by_url`. -/
def restCardStep (base : String) (m : List (String × (String × String)))
    (card : RestCard) : List (String × (String × String)) :=
  match card.href with
  | none => m
  | some href =>
    let absolute_url := urljoin base href
    let raw_name : Option String :=
      match card.label with
      | some lb => labelName lb
      | none => none
    match raw_name with
    | some nm =>
      if nm ≠ "" ∧ absolute_url ≠ "" then dictSet absolute_url (nm, absolute_url) m else m
    | none => m

/-- `RestaurantScraper.extract_restaurant_cards`: empty when the container is
absent, else the deduplicated `(name, url)` values in first-seen order. -/
def extract_restaurant_cards (base : String) (container : Option (List RestCard)) :
    List (String × String) :=
  match container with
  | none => []
  | some cards => (cards.foldl (restCardStep base) []).map (·.2)

/-- The stage-3 input after checkpoint filtering
(`FastFoodNutritionScraper.scrape_nutrition_data` lines 250-260): with resume
enabled, every restaurant name present in the loaded checkpoints is deleted
from the menu mapping. -/
def stage3Pending (resume : Bool) (checkpoints menu_data : Obj) : Obj :=
  if resume then (dictKeys checkpoints).foldl dictDel menu_data else menu_data

/-- `FastFoodNutritionScraper.scrape_nutrition_data`: filter out checkpointed
restaurants, run `NutritionScraper.scrape` on the rest, and with resume
enabled merge as `{**checkpoints, **enriched_data}`. -/
def scrape_nutrition_data (base : String) (fetch : String → Except String Doc)
    (resume : Bool) (checkpoints menu_data : Obj) : Obj :=
  let enriched := nutritionScrape base fetch (stage3Pending resume checkpoints menu_data)
  if resume then dictMerge checkpoints enriched else enriched

/-- Observer: the serving-size list stored on a processed item. -/
def servingSizesOf (item : Obj) : List JVal :=
  match dictGet "nutritional_values" item with
  | some (JVal.obj nv) =>
    match dictGet "serving_sizes" nv with
    | some (JVal.list l) => l
    | _ => []
  | _ => []

/-- Observer: the `size_label` of one serialized serving variant. -/
def servingLabelOf (j : JVal) : JVal :=
  dictGetD (toObj j) "size_label" JVal.null

/-- Observer: the string stored under key `k` of an object value, if any. -/
def jStrAt (j : JVal) (k : String) : Option String :=
  match j with
  | JVal.obj fields =>
    match dictGet k fields with
    | some (JVal.str s) => some s
    | _ => none
  | _ => none

/-- Left fold keeping the last element satisfying `p` (the aggregation shape
used by `process_menu_item` for allergens and ingredients). -/
def lastSat {α : Type} (p : α → Bool) (d : α) (l : List α) : α :=
  l.foldl (fun acc a => if p a then a else acc) d

/-- The same aggregate, stated the way the specification reads: the last
element of the list satisfying `p`, or the default when there is none. -/
def lastSatSpec {α : Type} (p : α → Bool) (d : α) (l : List α) : α :=
  ((l.filter p).getLast?).getD d

/-- The document a fetch oracle returns for a URL (meaningful when the fetch
succeeds). -/
def fetchedDoc (fetch : String → Except String Doc) (url : String) : Doc :=
  match fetch url with
  | Except.ok doc => doc
  | Except.error _ => {}

/-- The names of the input restaurants that `MenuItemScraper.scrape` does not
skip (non-empty name and URL). -/
def validRestNames (restaurants : List Obj) : List String :=
  (restaurants.filter (fun r => getStr r "name" ≠ "" ∧ getStr r "url" ≠ "")).map
    (fun r => getStr r "name")

/-- A fetch oracle whose every request fails (the site is unreachable). -/
def fetchDown : String → Except String Doc := fun _ => Except.error "connection refused"

/-- Concrete menu item for exercising the per-item failure path of
`NutritionScraper.scrape`. -/
def c1Item : Obj :=
  [("name", JVal.str "Burger"), ("url", JVal.str "http://r/burger"),
   ("category", JVal.str "Burgers")]

/-- Stage-2 menu data holding the single restaurant `R` with the single item
`c1Item`. -/
def c1Menu : Obj :=
  [("R", JVal.obj
    [("url", JVal.str "http://r"), ("restaurant_logo", JVal.str ""),
     ("items", JVal.list [JVal.obj c1Item])])]

/-- Item page with a two-option serving-size dropdown. -/
def c6DocMain : Doc :=
  { dropdownMenu := some [⟨"Small", "http://v1"⟩, ⟨"Large", "http://v2"⟩] }

/-- First variant page: the allergen section has no category columns but
carries an allergy-information paragraph, so its extracted allergens record
is non-empty only in its `allergy_information` field. -/
def c6DocV1 : Doc :=
  { allergenSection := some
      { cols := [], paragraphs := ["Allergy information is available on request"] } }

/-- Second variant page: nothing extractable. -/
def c6DocV2 : Doc := {}

/-- Fetch oracle serving the three pages of the C6 scenario. -/
def c6Fetch : String → Except String Doc := fun u =>
  if u = "http://item" then Except.ok c6DocMain
  else if u = "http://v1" then Except.ok c6DocV1
  else Except.ok c6DocV2

/-- The menu item whose page is `c6DocMain`. -/
def c6Item : Obj := [("name", JVal.str "Shake"), ("url", JVal.str "http://item")]

/-- A single restaurant entry with non-empty name and URL. -/
def c9Restaurants : List Obj := [[("name", JVal.str "A"), ("url", JVal.str "http://a")]]

/-! ### Helper lemmas about the dictionary embedding -/

theorem dictGet_dictSet_self {α : Type} (k : String) (v : α) (d : List (String × α)) :
    dictGet k (dictSet k v d) = some v := by
  induction d with
  | nil => simp [dictGet, dictSet]
  | cons p rest ih =>
    obtain ⟨k', v'⟩ := p
    by_cases h : k' = k
    · simp [dictSet, h, dictGet]
    · simp [dictSet, h, dictGet, ih]

theorem dictKeys_cons {α : Type} (k : String) (v : α) (d : List (String × α)) :
    dictKeys ((k, v) :: d) = k :: dictKeys d := rfl

theorem dictGet_dictSet_ne {α : Type} (k k' : String) (h : k' ≠ k) (v : α)
    (d : List (String × α)) : dictGet k' (dictSet k v d) = dictGet k' d := by
  induction d with
  | nil => simp [dictGet, dictSet, if_neg (Ne.symm h)]
  | cons p rest ih =>
    obtain ⟨k₀, v₀⟩ := p
    by_cases hk : k₀ = k
    · subst hk
      simp only [dictSet, if_pos rfl, dictGet, if_neg (Ne.symm h)]
    · simp only [dictSet, if_neg hk, dictGet]
      by_cases hk' : k₀ = k'
      · simp [hk']
      · simp [hk', ih]

theorem mem_dictKeys_dictSet {α : Type} (k k' : String) (v : α) (d : List (String × α)) :
    k' ∈ dictKeys (dictSet k v d) ↔ k' = k ∨ k' ∈ dictKeys d := by
  induction d with
  | nil => simp [dictKeys, dictSet, eq_comm]
  | cons p rest ih =>
    obtain ⟨k₀, v₀⟩ := p
    by_cases hk : k₀ = k
    · subst hk
      have hstep : dictSet k₀ v ((k₀, v₀) :: rest) = (k₀, v) :: rest := by
        simp [dictSet]
      simp only [hstep, dictKeys_cons, List.mem_cons]
      tauto
    · have hstep : dictSet k v ((k₀, v₀) :: rest) = (k₀, v₀) :: dictSet k v rest := by
        simp [dictSet, hk]
      simp only [hstep, dictKeys_cons, List.mem_cons, ih]
      tauto

theorem dictGet_eq_none_of_not_mem {α : Type} (k : String) (d : List (String × α))
    (h : k ∉ dictKeys d) : dictGet k d = none := by
  induction d with
  | nil => rfl
  | cons p rest ih =>
    obtain ⟨k₀, v₀⟩ := p
    rw [dictKeys_cons, List.mem_cons] at h
    push_neg at h
    simp [dictGet, Ne.symm h.1, ih h.2]

theorem not_mem_dictKeys_dictDel {α : Type} (d : List (String × α)) (k : String) :
    k ∉ dictKeys (dictDel d k) := by
  intro h
  simp only [dictKeys, dictDel, List.mem_map] at h
  obtain ⟨p, hp, hk⟩ := h
  rw [List.mem_filter] at hp
  exact (by simpa using hp.2 : p.1 ≠ k) hk

theorem mem_dictKeys_of_mem_dictDel {α : Type} (d : List (String × α)) (k k' : String)
    (h : k' ∈ dictKeys (dictDel d k)) : k' ∈ dictKeys d := by
  simp only [dictKeys, dictDel, List.mem_map] at h ⊢
  obtain ⟨p, hp, hk⟩ := h
  rw [List.mem_filter] at hp
  exact ⟨p, hp.1, hk⟩

theorem not_mem_keys_foldl_dictDel_mono {α : Type} (ks : List String) :
    ∀ (d : List (String × α)) (k : String), k ∉ dictKeys d →
      k ∉ dictKeys (ks.foldl dictDel d) := by
  induction ks with
  | nil => intro d k h; exact h
  | cons k₀ rest ih =>
    intro d k h
    exact ih (dictDel d k₀) k (fun hm => h (mem_dictKeys_of_mem_dictDel d k₀ k hm))

theorem not_mem_keys_foldl_dictDel {α : Type} (ks : List String) :
    ∀ (d : List (String × α)) (k : String), k ∈ ks → k ∉ dictKeys (ks.foldl dictDel d) := by
  induction ks with
  | nil => intro d k h; simp at h
  | cons k₀ rest ih =>
    intro d k h
    rcases List.mem_cons.1 h with rfl | hmem
    · exact not_mem_keys_foldl_dictDel_mono rest (dictDel d k) k
        (not_mem_dictKeys_dictDel d k)
    · exact ih (dictDel d k₀) k hmem

theorem dictGet_dictMerge_of_not_mem {α : Type} (b : List (String × α)) :
    ∀ (a : List (String × α)) (k : String), k ∉ dictKeys b →
      dictGet k (dictMerge a b) = dictGet k a := by
  induction b with
  | nil => intro a k _; rfl
  | cons p rest ih =>
    intro a k h
    obtain ⟨k₀, v₀⟩ := p
    rw [dictKeys_cons, List.mem_cons] at h
    push_neg at h
    have step : dictMerge a ((k₀, v₀) :: rest) = dictMerge (dictSet k₀ v₀ a) rest := rfl
    rw [step, ih _ k h.2, dictGet_dictSet_ne k₀ k h.1 v₀ a]

theorem mem_keys_nutritionScrapeFold (base : String) (fetch : String → Except String Doc)
    (m : Obj) : ∀ (acc : Obj) (k : String),
    k ∈ dictKeys (m.foldl (nutritionScrapeStep base fetch) acc) →
    k ∈ dictKeys acc ∨ k ∈ dictKeys m := by
  induction m with
  | nil => intro acc k h; exact Or.inl h
  | cons p rest ih =>
    intro acc k h
    rcases ih _ k h with h' | h'
    · rcases (mem_dictKeys_dictSet p.1 k _ acc).1 h' with rfl | h''
      · exact Or.inr (by simp [dictKeys])
      · exact Or.inl h''
    · exact Or.inr (by simp [dictKeys] at h' ⊢; tauto)

theorem mem_keys_nutritionScrape (base : String) (fetch : String → Except String Doc)
    (m : Obj) (k : String) (h : k ∈ dictKeys (nutritionScrape base fetch m)) :
    k ∈ dictKeys m := by
  rcases mem_keys_nutritionScrapeFold base fetch m [] k h with h' | h'
  · simp [dictKeys] at h'
  · exact h'

/-! ### Helper lemmas about folds of the scrapers -/

theorem lastSat_eq_spec {α : Type} (p : α → Bool) (l : List α) :
    ∀ (d : α), lastSat p d l = lastSatSpec p d l := by
  induction l using List.reverseRecOn with
  | nil => intro d; rfl
  | append_singleton xs x ih =>
    intro d
    by_cases hx : p x
    · simp [lastSat, lastSatSpec, List.foldl_append, List.filter_append, hx]
    · simp only [lastSat, lastSatSpec, List.foldl_append, List.filter_append] at ih ⊢
      simp [hx, ih]

theorem dedupByUrl_of_nodup (l : List DropOption) :
    ∀ (seen : List String), (l.map (·.url)).Nodup → (∀ o ∈ l, o.url ∉ seen) →
      dedupByUrl l seen = l := by
  induction l with
  | nil => intro seen _ _; rfl
  | cons o rest ih =>
    intro seen hnd hseen
    rw [List.map_cons, List.nodup_cons] at hnd
    have hnot : o.url ∉ seen := hseen o (by simp)
    have hrest : ∀ x ∈ rest, x.url ∉ o.url :: seen := by
      intro x hx
      rw [List.mem_cons]
      push_neg
      refine ⟨?_, hseen x (by simp [hx])⟩
      intro he
      exact hnd.1 (by rw [← he]; exact List.mem_map_of_mem _ hx)
    simp only [dedupByUrl, if_neg hnot]
    rw [ih (o.url :: seen) hnd.2 hrest]

theorem processVariants_ok (base : String) (fetch : String → Except String Doc)
    (item_name : String) : ∀ (opts : List DropOption),
    (∀ o ∈ opts, fetch o.url = Except.ok (fetchedDoc fetch o.url)) →
    ∀ (svs : List JVal) (aggA : ScrapedAllergens) (aggI : String),
    processVariants base fetch item_name opts svs aggA aggI =
      Except.ok
        (svs ++ opts.map (fun o =>
           servingJ (itemPageData base (fetchedDoc fetch o.url) o.title item_name).1
             (itemPageData base (fetchedDoc fetch o.url) o.title item_name).2.2.2),
         lastSat allergensListNonEmpty aggA
           (opts.map (fun o => extract_allergens (fetchedDoc fetch o.url))),
         lastSat (fun s => s ≠ "") aggI
           (opts.map (fun o => extract_ingredients (fetchedDoc fetch o.url)))) := by
  intro opts
  induction opts with
  | nil =>
    intro _ svs aggA aggI
    simp [processVariants, lastSat]
  | cons o rest ih =>
    intro hfetch svs aggA aggI
    have ho : fetch o.url = Except.ok (fetchedDoc fetch o.url) := hfetch o (by simp)
    have hrest : ∀ x ∈ rest, fetch x.url = Except.ok (fetchedDoc fetch x.url) :=
      fun x hx => hfetch x (by simp [hx])
    simp only [processVariants, extract_item_nutrition_data, ho]
    rw [ih hrest]
    simp [itemPageData, lastSat, List.append_assoc]

theorem fetchLoop_all_fail (d : ℚ) (elast : String) :
    ∀ (es : List String) (attempt : Nat) (st : ScraperStats),
    fetchLoop d attempt st ((es ++ [elast]).map AttemptOutcome.fail) =
      (Except.error elast,
       { total_requests := st.total_requests + 1,
         successful_requests := st.successful_requests,
         failed_requests := st.failed_requests + 1,
         total_retries := st.total_retries + es.length + 1 },
       (List.range es.length).map (fun i => d * 2 ^ (attempt + i))) := by
  intro es
  induction es with
  | nil => intro attempt st; rfl
  | cons e rest ih =>
    intro attempt st
    have hsh : ∃ y ys, (rest ++ [elast]).map AttemptOutcome.fail = AttemptOutcome.fail y :: ys := by
      cases rest with
      | nil => exact ⟨elast, [], rfl⟩
      | cons e2 rest2 => exact ⟨e2, (rest2 ++ [elast]).map AttemptOutcome.fail, rfl⟩
    obtain ⟨y, ys, hys⟩ := hsh
    have hstep : fetchLoop d attempt st (((e :: rest) ++ [elast]).map AttemptOutcome.fail) =
        (let out := fetchLoop d (attempt + 1) st.record_retry
          ((rest ++ [elast]).map AttemptOutcome.fail)
         (out.1, out.2.1, d * 2 ^ attempt :: out.2.2)) := by
      rw [List.cons_append, List.map_cons, hys]
      rfl
    rw [hstep, ih (attempt + 1) st.record_retry]
    refine Prod.ext rfl (Prod.ext ?_ ?_)
    · show ({ total_requests := st.record_retry.total_requests + 1,
              successful_requests := st.record_retry.successful_requests,
              failed_requests := st.record_retry.failed_requests + 1,
              total_retries := st.record_retry.total_retries + rest.length + 1 } :
              ScraperStats) = _
      simp only [ScraperStats.record_retry, ScraperStats.mk.injEq, List.length_cons]
      exact ⟨trivial, trivial, trivial, by omega⟩
    · show d * 2 ^ attempt ::
        (List.range rest.length).map (fun i => d * 2 ^ (attempt + 1 + i)) = _
      rw [List.length_cons, List.range_succ_eq_map, List.map_cons, List.map_map]
      refine congrArg₂ _ (by rw [Nat.add_zero]) ?_
      apply List.map_congr_left
      intro i _
      show d * 2 ^ (attempt + 1 + i) = d * 2 ^ (attempt + (i + 1))
      exact congrArg (fun t => d * 2 ^ t) (by omega)

theorem validRestNames_cons (r : Obj) (rest : List Obj) :
    validRestNames (r :: rest) =
      if getStr r "name" ≠ "" ∧ getStr r "url" ≠ "" then
        getStr r "name" :: validRestNames rest
      else validRestNames rest := by
  by_cases h : getStr r "name" ≠ "" ∧ getStr r "url" ≠ ""
  · simp [validRestNames, List.filter_cons, h]
  · simp [validRestNames, List.filter_cons, h]

theorem menuScrapeFold_not_mem (base : String) (fetch : String → Except String Doc) :
    ∀ (rs : List Obj) (acc : Obj) (k : String), k ∉ validRestNames rs →
      dictGet k (rs.foldl (menuScrapeStep base fetch) acc) = dictGet k acc := by
  intro rs
  induction rs with
  | nil => intro acc k _; rfl
  | cons r rest ih =>
    intro acc k h
    rw [validRestNames_cons] at h
    rw [List.foldl_cons]
    by_cases hv : getStr r "name" ≠ "" ∧ getStr r "url" ≠ ""
    · rw [if_pos hv, List.mem_cons] at h
      push_neg at h
      have hstep : menuScrapeStep base fetch acc r =
          dictSet (getStr r "name") (menuEntryFor base fetch (getStr r "url")) acc := by
        simp [menuScrapeStep, hv.1, hv.2]
      rw [ih _ k h.2, hstep, dictGet_dictSet_ne _ k h.1 _ acc]
    · rw [if_neg hv] at h
      have hstep : menuScrapeStep base fetch acc r = acc := by
        rw [not_and_or, not_ne_iff, not_ne_iff] at hv
        rcases hv with hv | hv <;> simp [menuScrapeStep, hv]
      rw [ih _ k h, hstep]

theorem menuScrapeFold_entry (base : String) (fetch : String → Except String Doc)
    (r : Obj) (hname : getStr r "name" ≠ "") (hurl : getStr r "url" ≠ "") :
    ∀ (rs : List Obj), r ∈ rs → (validRestNames rs).Nodup →
    ∀ (acc : Obj),
    dictGet (getStr r "name") (rs.foldl (menuScrapeStep base fetch) acc) =
      some (menuEntryFor base fetch (getStr r "url")) := by
  intro rs
  induction rs with
  | nil => intro hmem; simp at hmem
  | cons r₀ rest ih =>
    intro hmem hnd acc
    rw [validRestNames_cons] at hnd
    rw [List.foldl_cons]
    rcases List.mem_cons.1 hmem with rfl | hmem'
    · rw [if_pos ⟨hname, hurl⟩, List.nodup_cons] at hnd
      have hstep : menuScrapeStep base fetch acc r =
          dictSet (getStr r "name") (menuEntryFor base fetch (getStr r "url")) acc := by
        simp [menuScrapeStep, hname, hurl]
      rw [menuScrapeFold_not_mem base fetch rest _ _ hnd.1, hstep,
        dictGet_dictSet_self]
    · have hnd' : (validRestNames rest).Nodup := by
        by_cases hv : getStr r₀ "name" ≠ "" ∧ getStr r₀ "url" ≠ ""
        · rw [if_pos hv, List.nodup_cons] at hnd; exact hnd.2
        · rwa [if_neg hv] at hnd
      exact ih hmem' hnd' _

theorem mem_keys_nutritionRowFold (rows : List NRow) :
    ∀ (acc : List (String × String)) (k : String),
    k ∈ dictKeys (rows.foldl nutritionRowStep acc) →
    k ∈ dictKeys acc ∨ ∃ row ∈ rows, ∃ v, rowEntry row = some (k, v) := by
  induction rows with
  | nil => intro acc k h; exact Or.inl h
  | cons row rest ih =>
    intro acc k h
    rw [List.foldl_cons] at h
    rcases ih _ k h with h' | h'
    · match hre : rowEntry row with
      | some (k₀, v₀) =>
        rw [show nutritionRowStep acc row = dictSet k₀ v₀ acc by
          simp [nutritionRowStep, hre]] at h'
        rcases (mem_dictKeys_dictSet k₀ k v₀ acc).1 h' with rfl | h''
        · exact Or.inr ⟨row, by simp, v₀, hre⟩
        · exact Or.inl h''
      | none =>
        rw [show nutritionRowStep acc row = acc by simp [nutritionRowStep, hre]] at h'
        exact Or.inl h'
    · obtain ⟨row', hrow', hv⟩ := h'
      exact Or.inr ⟨row', by simp [hrow'], hv⟩

theorem servingSizesOf_write (item : Obj) (svs : List JVal) (alls ings : JVal) :
    servingSizesOf (dictSet "ingredients" ings (dictSet "allergens" alls
      (dictSet "nutritional_values"
        (JVal.obj [("serving_sizes", JVal.list svs)]) item))) = svs := by
  unfold servingSizesOf
  rw [dictGet_dictSet_ne _ _ (by decide) _ _, dictGet_dictSet_ne _ _ (by decide) _ _,
    dictGet_dictSet_self]
  rfl

theorem allergensOf_write (item : Obj) (nv alls ings : JVal) :
    dictGet "allergens" (dictSet "ingredients" ings (dictSet "allergens" alls
      (dictSet "nutritional_values" nv item))) = some alls := by
  rw [dictGet_dictSet_ne _ _ (by decide) _ _, dictGet_dictSet_self]

theorem ingredientsOf_write (item : Obj) (nv alls ings : JVal) :
    dictGet "ingredients" (dictSet "ingredients" ings (dictSet "allergens" alls
      (dictSet "nutritional_values" nv item))) = some ings := by
  rw [dictGet_dictSet_self]

theorem servingLabelOf_servingJ (sv : ScrapedServingSize) (img : Option String) :
    servingLabelOf (servingJ sv img) = JVal.str sv.size_label := rfl

/-- The multi-variant branch of `process_menu_item`, computed: when the item
page carries a dropdown with `anchors` whose joined URLs are pairwise
distinct and every variant page fetch succeeds, the item gains the serving
list (one serialized serving per anchor, in order) and the last-non-empty
aggregates for allergens and ingredients. -/
theorem process_menu_item_multi (base : String) (fetch : String → Except String Doc)
    (item : Obj) (item_url : String) (doc : Doc) (anchors : List Anchor)
    (hurl : getStr item "url" = item_url) (hne : item_url ≠ "")
    (hfetch : fetch item_url = Except.ok doc)
    (hdrop : doc.dropdownMenu = some anchors)
    (hanch : anchors ≠ [])
    (hnodup : (anchors.map (fun a => urljoin base a.href)).Nodup)
    (hok : ∀ a ∈ anchors, ∃ dd, fetch (urljoin base a.href) = Except.ok dd) :
    process_menu_item_inner base fetch item =
      Except.ok (dictSet "ingredients"
        (JVal.str (lastSat (fun s => s ≠ "") ""
          (anchors.map (fun a => extract_ingredients (fetchedDoc fetch (urljoin base a.href))))))
        (dictSet "allergens"
          (allergensJ (lastSat allergensListNonEmpty {}
            (anchors.map (fun a => extract_allergens (fetchedDoc fetch (urljoin base a.href))))))
          (dictSet "nutritional_values"
            (JVal.obj [("serving_sizes", JVal.list
              (anchors.map (fun a =>
                servingJ
                  (itemPageData base (fetchedDoc fetch (urljoin base a.href)) a.text
                    (getStr item "name")).1
                  (itemPageData base (fetchedDoc fetch (urljoin base a.href)) a.text
                    (getStr item "name")).2.2.2)))]) item))) := by
  have hopts : extract_dropdown_options base doc =
      anchors.map (fun a => (⟨a.text, urljoin base a.href⟩ : DropOption)) := by
    rw [extract_dropdown_options, hdrop]
    exact dedupByUrl_of_nodup _ [] (by simpa [List.map_map] using hnodup) (by simp)
  have hfetch' : ∀ o ∈ anchors.map (fun a => (⟨a.text, urljoin base a.href⟩ : DropOption)),
      fetch o.url = Except.ok (fetchedDoc fetch o.url) := by
    intro o ho
    obtain ⟨a, ha, rfl⟩ := List.mem_map.1 ho
    obtain ⟨dd, hdd⟩ := hok a ha
    simp [fetchedDoc, hdd]
  obtain ⟨a₀, arest, rfl⟩ : ∃ a₀ arest, anchors = a₀ :: arest := by
    cases anchors with
    | nil => exact absurd rfl hanch
    | cons a₀ arest => exact ⟨a₀, arest, rfl⟩
  simp only [List.map_cons] at hopts hfetch'
  unfold process_menu_item_inner
  rw [hurl, if_neg hne]
  simp only [hfetch, hopts]
  rw [processVariants_ok base fetch (getStr item "name") _ hfetch' [] {} ""]
  simp [List.map_map, Function.comp_def]

/-- C1: the specification says an item whose processing raises is emitted as
a placeholder that keeps the item's original keys, carries an empty
`serving_sizes` list and an `error` field.  The code's `scrape` does contain
exactly that placeholder branch (with the comment "Add placeholder item to
maintain structure"), but `process_menu_item` is decorated with
`with_error_handling(default_return={})`, which swallows every exception and
returns the empty dict, so the branch is unreachable: the theorem evaluates
the pipeline on a one-item restaurant whose item fetch fails and shows the
item is emitted as the empty dict, every original key (name, url, category)
dropped and no `error` field present. -/
theorem C1_failed_item_emitted_as_empty_dict :
    nutritionScrape "" fetchDown c1Menu =
      [("R", JVal.obj
        [("url", JVal.str "http://r"), ("restaurant_logo", JVal.str ""),
         ("items", JVal.list [JVal.obj []])])] := rfl

/-- C2: `fetch_page` with `max_retries = 3` that fails twice and succeeds on
the third attempt returns the parsed document with stats showing exactly 2
retries, 1 success and 0 failures; with every attempt failing it raises
`NetworkException` carrying the last cause with stats showing exactly 1
failure; between failed attempt `i` and the next attempt it sleeps
`base_delay * 2 ^ i`, and no sleep follows the final failed attempt. -/
theorem C2_fetch_retry_backoff (d : ℚ) (doc : Doc) (e1 e2 : String) :
    fetch_page d [AttemptOutcome.fail e1, AttemptOutcome.fail e2, AttemptOutcome.ok doc] =
      (Except.ok doc,
       { total_requests := 1, successful_requests := 1,
         failed_requests := 0, total_retries := 2 },
       [d * 2 ^ 0, d * 2 ^ 1]) ∧
    ∀ (es : List String) (elast : String),
      fetch_page d ((es ++ [elast]).map AttemptOutcome.fail) =
        (Except.error elast,
         { total_requests := 1, successful_requests := 0,
           failed_requests := 1, total_retries := es.length + 1 },
         (List.range es.length).map (fun i => d * 2 ^ i)) := by
  constructor
  · rfl
  · intro es elast
    have h := fetchLoop_all_fail d elast es 0 {}
    simpa [fetch_page] using h

/-- C3: on a resumed run every restaurant name present in the loaded
checkpoints is removed from the stage-3 input before nutrition extraction,
and the merge `{**checkpoints, **enriched_data}` afterwards returns exactly
the checkpointed data for every checkpointed restaurant: the stage-3 output
introduces no key outside its (already filtered) input, so no collision with
a checkpoint key can occur and the checkpoint value survives verbatim. -/
theorem C3_checkpoint_resume (base : String) (fetch : String → Except String Doc)
    (checkpoints menu_data : Obj) (r : String) (hr : r ∈ dictKeys checkpoints) :
    r ∉ dictKeys (stage3Pending true checkpoints menu_data) ∧
    dictGet r (scrape_nutrition_data base fetch true checkpoints menu_data) =
      dictGet r checkpoints := by
  have hpend : stage3Pending true checkpoints menu_data =
      (dictKeys checkpoints).foldl dictDel menu_data := rfl
  have h1 : r ∉ dictKeys (stage3Pending true checkpoints menu_data) := by
    rw [hpend]
    exact not_mem_keys_foldl_dictDel (dictKeys checkpoints) menu_data r hr
  refine ⟨h1, ?_⟩
  have h2 : r ∉ dictKeys (nutritionScrape base fetch
      (stage3Pending true checkpoints menu_data)) :=
    fun hm => h1 (mem_keys_nutritionScrape _ _ _ r hm)
  have hsc : scrape_nutrition_data base fetch true checkpoints menu_data =
      dictMerge checkpoints (nutritionScrape base fetch
        (stage3Pending true checkpoints menu_data)) := rfl
  rw [hsc]
  exact dictGet_dictMerge_of_not_mem _ checkpoints r h2

/-- Witness for C3: restaurant `X` is checkpointed; on the resumed run it is
excluded from the pending stage-3 input and the final output for `X` is the
checkpointed value verbatim. -/
theorem C3_checkpoint_resume_witness :
    "X" ∈ dictKeys [("X", JVal.str "done")] ∧
    "X" ∉ dictKeys (stage3Pending true [("X", JVal.str "done")]
      [("X", JVal.obj []), ("Y", JVal.obj [])]) ∧
    dictGet "X" (scrape_nutrition_data "" fetchDown true [("X", JVal.str "done")]
      [("X", JVal.obj []), ("Y", JVal.obj [])]) = dictGet "X" [("X", JVal.str "done")] := by
  have h := C3_checkpoint_resume "" fetchDown [("X", JVal.str "done")]
    [("X", JVal.obj []), ("Y", JVal.obj [])] "X" (by decide)
  exact ⟨by decide, h.1, h.2⟩

/-- C4: a nutrition-table row with a header cell and at least one data cell
contributes the (snake-cased) header text as key and the first data cell as
value; a row without header cell but with at least two data cells
contributes the first cell as key and the second cell (index 1) as value,
whether two or three cells are present; in particular a 3-cell row
`Protein / 25g / 50%` yields `protein ↦ 25g` (the percentage column is
ignored) and a 2-cell row `Sodium / 460mg` yields `sodium ↦ 460mg`. -/
theorem C4_row_cell_selection :
    (∀ (th td0 : String) (tds : List String),
       th ≠ "" → nKeyBanned th = false →
       td0 ≠ "" → pyStrip td0 ≠ "" → pyStrip td0 ∉ ["", "?", "&nbsp;", "-"] →
       rowEntry ⟨some th, td0 :: tds⟩ = some (toSnakeCase th, pyStrip td0)) ∧
    (∀ (c0 c1 : String) (cs : List String),
       c0 ≠ "" → nKeyBanned c0 = false →
       c1 ≠ "" → pyStrip c1 ≠ "" → pyStrip c1 ∉ ["", "?", "&nbsp;", "-"] →
       rowEntry ⟨none, c0 :: c1 :: cs⟩ = some (toSnakeCase c0, pyStrip c1)) ∧
    nutritionFromRows [⟨none, ["Protein", "25g", "50%"]⟩] = [("protein", "25g")] ∧
    nutritionFromRows [⟨none, ["Sodium", "460mg"]⟩] = [("sodium", "460mg")] := by
  refine ⟨?_, ?_, by decide, by decide⟩
  · intro th td0 tds h1 h2 h3 h4 h5
    simp [rowEntry, rowKeyValue, h1, h2, h3, h4, h5]
  · intro c0 c1 cs h1 h2 h3 h4 h5
    simp [rowEntry, rowKeyValue, h1, h2, h3, h4, h5]

/-- Witness for C4: both row shapes evaluated at concrete cells. -/
theorem C4_row_cell_selection_witness :
    rowEntry ⟨some "Calories", ["200"]⟩ = some (toSnakeCase "Calories", pyStrip "200") ∧
    rowEntry ⟨none, ["Sodium", "460mg", "20%"]⟩ =
      some (toSnakeCase "Sodium", pyStrip "460mg") :=
  ⟨C4_row_cell_selection.1 "Calories" "200" [] (by decide) (by decide) (by decide)
     (by decide) (by decide),
   C4_row_cell_selection.2.1 "Sodium" "460mg" ["20%"] (by decide) (by decide) (by decide)
     (by decide) (by decide)⟩

/-- C5: an item page without a dropdown size-selector yields exactly one
serving variant, labeled `"1 serving"` and carrying the nutrition table of
the item's own page; a page whose selector yields options with
pairwise-distinct URLs and non-empty display texts yields exactly one
variant per option, in order, each labeled with the option's display
text. -/
theorem C5_variant_synthesis (base : String) (fetch : String → Except String Doc)
    (item : Obj) (item_url : String) (doc : Doc)
    (hurl : getStr item "url" = item_url) (hne : item_url ≠ "")
    (hfetch : fetch item_url = Except.ok doc) :
    (doc.dropdownMenu = none →
      servingSizesOf (process_menu_item base fetch item) =
        [servingJ { size_label := "1 serving", nutrition := extract_nutrition_table doc }
          (extract_item_image base doc)]) ∧
    (∀ (anchors : List Anchor),
      doc.dropdownMenu = some anchors → anchors ≠ [] →
      (anchors.map (fun a => urljoin base a.href)).Nodup →
      (∀ a ∈ anchors, a.text ≠ "") →
      (∀ a ∈ anchors, ∃ dd, fetch (urljoin base a.href) = Except.ok dd) →
      (servingSizesOf (process_menu_item base fetch item)).map servingLabelOf =
        anchors.map (fun a => JVal.str a.text) ∧
      (servingSizesOf (process_menu_item base fetch item)).length = anchors.length) := by
  constructor
  · intro hdrop
    have hopts : extract_dropdown_options base doc = [] := by
      simp [extract_dropdown_options, hdrop]
    have hinner : process_menu_item_inner base fetch item = Except.ok
        (dictSet "ingredients" (JVal.str (extract_ingredients doc))
          (dictSet "allergens" (allergensJ (extract_allergens doc))
            (dictSet "nutritional_values"
              (JVal.obj [("serving_sizes", JVal.list
                [servingJ { size_label := "1 serving",
                            nutrition := extract_nutrition_table doc }
                  (extract_item_image base doc)])]) item))) := by
      unfold process_menu_item_inner
      rw [hurl, if_neg hne]
      simp only [hfetch, hopts, extract_item_nutrition_data]
      rfl
    simp only [process_menu_item, hinner]
    exact servingSizesOf_write item _ _ _
  · intro anchors hdrop hanch hnodup htext hok
    have hmulti := process_menu_item_multi base fetch item item_url doc anchors hurl hne
      hfetch hdrop hanch hnodup hok
    constructor
    · simp only [process_menu_item, hmulti, servingSizesOf_write]
      rw [List.map_map]
      apply List.map_congr_left
      intro a ha
      have hta : a.text ≠ "" := htext a ha
      simp [Function.comp_def, servingLabelOf_servingJ, itemPageData, hta]
    · simp only [process_menu_item, hmulti, servingSizesOf_write, List.length_map]

/-- Witness for C5: the two-option item page of the `c6` scenario yields
exactly two variants labeled with the option texts. -/
theorem C5_variant_synthesis_witness :
    (servingSizesOf (process_menu_item "" c6Fetch c6Item)).map servingLabelOf =
      [JVal.str "Small", JVal.str "Large"] ∧
    (servingSizesOf (process_menu_item "" c6Fetch c6Item)).length = 2 := by
  have h := (C5_variant_synthesis "" c6Fetch c6Item "http://item" c6DocMain rfl
      (by decide) rfl).2 [⟨"Small", "http://v1"⟩, ⟨"Large", "http://v2"⟩] rfl
      (List.cons_ne_nil _ _) (by decide) (by decide)
      (fun a ha => by
        rcases List.mem_cons.1 ha with rfl | ha2
        · exact ⟨c6DocV1, rfl⟩
        · rcases List.mem_cons.1 ha2 with rfl | h3
          · exact ⟨c6DocV2, rfl⟩
          · simp at h3)
  exact ⟨by simpa using h.1, by simpa using h.2⟩

/-- C6 (amended): for a multi-variant item the aggregated allergens value is
the result of the last variant whose extracted allergens record has at least
one of its `contains` / `does_not_contain` / `unknown` lists non-empty (a
record carrying only `allergy_information` text does not overwrite), the
aggregated ingredients value is the last non-empty ingredients string, and
when no variant qualifies the aggregate is the empty default. -/
theorem C6_allergen_ingredient_last_nonempty (base : String)
    (fetch : String → Except String Doc) (item : Obj) (item_url : String) (doc : Doc)
    (anchors : List Anchor)
    (hurl : getStr item "url" = item_url) (hne : item_url ≠ "")
    (hfetch : fetch item_url = Except.ok doc)
    (hdrop : doc.dropdownMenu = some anchors) (hanch : anchors ≠ [])
    (hnodup : (anchors.map (fun a => urljoin base a.href)).Nodup)
    (hok : ∀ a ∈ anchors, ∃ dd, fetch (urljoin base a.href) = Except.ok dd) :
    dictGet "allergens" (process_menu_item base fetch item) =
      some (allergensJ (lastSatSpec allergensListNonEmpty {}
        (anchors.map (fun a => extract_allergens (fetchedDoc fetch (urljoin base a.href)))))) ∧
    dictGet "ingredients" (process_menu_item base fetch item) =
      some (JVal.str (lastSatSpec (fun s => s ≠ "") ""
        (anchors.map (fun a =>
          extract_ingredients (fetchedDoc fetch (urljoin base a.href)))))) := by
  have hmulti := process_menu_item_multi base fetch item item_url doc anchors hurl hne
    hfetch hdrop hanch hnodup hok
  constructor
  · rw [← lastSat_eq_spec]
    simp only [process_menu_item, hmulti]
    exact allergensOf_write item _ _ _
  · rw [← lastSat_eq_spec]
    simp only [process_menu_item, hmulti]
    exact ingredientsOf_write item _ _ _

/-- Counterexample for C6 as frozen: on the two-variant `c6` scenario the
first variant's allergens record is non-empty (its `allergy_information`
field carries text) and the second variant's record is empty, so the claim
("the aggregated allergens value equals the result from the last variant
whose result was non-empty") demands the first variant's record; the code's
overwrite test looks only at the three category lists and therefore keeps
the empty default instead. -/
theorem C6_counterexample :
    dictGet "allergens" (process_menu_item "" c6Fetch c6Item) = some (allergensJ {}) ∧
    extract_allergens c6DocV1 ≠ ({} : ScrapedAllergens) ∧
    extract_allergens c6DocV2 = ({} : ScrapedAllergens) ∧
    dictGet "allergens" (process_menu_item "" c6Fetch c6Item) ≠
      some (allergensJ (extract_allergens c6DocV1)) := by
  refine ⟨rfl, by decide, by decide, fun h => ?_⟩
  have h1 : dictGet "allergens" (process_menu_item "" c6Fetch c6Item) =
      some (allergensJ {}) := rfl
  rw [h1] at h
  have h2 := Option.some.inj h
  have h3 := congrArg (fun j => jStrAt j "allergy_information") h2
  exact absurd h3 (by decide)

/-- Witness for C6: the amended aggregation applied to the `c6` scenario. -/
theorem C6_allergen_ingredient_last_nonempty_witness :
    dictGet "allergens" (process_menu_item "" c6Fetch c6Item) =
      some (allergensJ (lastSatSpec allergensListNonEmpty {}
        (([⟨"Small", "http://v1"⟩, ⟨"Large", "http://v2"⟩] : List Anchor).map
          (fun a => extract_allergens (fetchedDoc c6Fetch (urljoin "" a.href)))))) :=
  (C6_allergen_ingredient_last_nonempty "" c6Fetch c6Item "http://item" c6DocMain
    [⟨"Small", "http://v1"⟩, ⟨"Large", "http://v2"⟩] rfl (by decide) rfl rfl
    (List.cons_ne_nil _ _) (by decide)
    (fun a ha => by
      rcases List.mem_cons.1 ha with rfl | ha2
      · exact ⟨c6DocV1, rfl⟩
      · rcases List.mem_cons.1 ha2 with rfl | h3
        · exact ⟨c6DocV2, rfl⟩
        · simp at h3)).1

/-- C7: nutrition-table rows whose key text starts with one of the discarded
headers contribute no entry; rows whose stripped value is empty or one of
the placeholders `?`, `&nbsp;`, `-` contribute no entry; every emitted key
is the snake-cased key text (non-alphanumeric characters become
underscores, runs of underscores collapse, leading/trailing underscores are
stripped, after lowering), as the two concrete conversions illustrate. -/
theorem C7_row_filtering_and_key_casing :
    (∀ (row : NRow) (k : String), (rowKeyValue row).1 = some k → nKeyBanned k = true →
       rowEntry row = none) ∧
    (∀ (row : NRow) (v : String), (rowKeyValue row).2 = some v →
       pyStrip v ∈ ["", "?", "&nbsp;", "-"] → rowEntry row = none) ∧
    (∀ (row : NRow) (k v : String), rowEntry row = some (k, v) →
       ∃ kt, (rowKeyValue row).1 = some kt ∧ k = toSnakeCase kt) ∧
    (∀ (rows : List NRow) (k : String), k ∈ dictKeys (nutritionFromRows rows) →
       ∃ row ∈ rows, ∃ kt, (rowKeyValue row).1 = some kt ∧ k = toSnakeCase kt) ∧
    toSnakeCase "Total Fat (g)" = "total_fat_g" ∧
    toSnakeCase "  Total   Carbohydrates. " = "total_carbohydrates" := by
  have part3 : ∀ (row : NRow) (k v : String), rowEntry row = some (k, v) →
      ∃ kt, (rowKeyValue row).1 = some kt ∧ k = toSnakeCase kt := by
    intro row k v h
    rcases hrw : rowKeyValue row with ⟨kq, vq⟩
    unfold rowEntry at h
    rw [hrw] at h
    cases kq with
    | none => exact absurd h (by simp)
    | some kt =>
      dsimp only at h
      refine ⟨kt, rfl, ?_⟩
      split_ifs at h with hc
      · cases vq with
        | none => exact absurd h (by simp)
        | some v₀ =>
          dsimp only at h
          split_ifs at h with hcv
          have h2 := Option.some.inj h
          injection h2 with hk hv
          exact hk.symm
  refine ⟨?_, ?_, part3, ?_, by decide, by decide⟩
  · intro row k hk hban
    have heta : rowKeyValue row = (some k, (rowKeyValue row).2) := by rw [← hk]
    unfold rowEntry
    rw [heta]
    simp [hban]
  · intro row v hv hmem
    have heta : rowKeyValue row = ((rowKeyValue row).1, some v) := by rw [← hv]
    unfold rowEntry
    rw [heta]
    cases hkv : (rowKeyValue row).1 with
    | none => rfl
    | some kt => simp [hmem]
  · intro rows k h
    rcases mem_keys_nutritionRowFold rows [] k h with h' | h'
    · simp [dictKeys] at h'
    · obtain ⟨row, hrow, v, hv⟩ := h'
      obtain ⟨kt, hkt, hk⟩ := part3 row k v hv
      exact ⟨row, hrow, kt, hkt, hk⟩

/-- Witness for C7: a discarded-header row, a placeholder-value row, and the
snake-cased origin of an emitted key, at concrete rows. -/
theorem C7_row_filtering_witness :
    rowEntry ⟨some "% Daily Value", ["x"]⟩ = none ∧
    rowEntry ⟨none, ["Sodium", "-"]⟩ = none ∧
    (∃ kt, (rowKeyValue ⟨none, ["Sodium", "460mg"]⟩).1 = some kt ∧
      "sodium" = toSnakeCase kt) :=
  ⟨C7_row_filtering_and_key_casing.1 ⟨some "% Daily Value", ["x"]⟩ "% Daily Value"
     rfl (by decide),
   C7_row_filtering_and_key_casing.2.1 ⟨none, ["Sodium", "-"]⟩ "-" rfl (by decide),
   C7_row_filtering_and_key_casing.2.2.1 ⟨none, ["Sodium", "460mg"]⟩ "sodium" "460mg"
     (by decide)⟩

/-- C8: the specification (like the source's own inline comment, "remove
trailing ' Nutrition' if present") says the no-direct-text-node fallback
strips a literal `" Nutrition"` suffix and otherwise leaves the full text
unchanged.  The code instead calls `text.replace(" Nutrition", "")`, which
removes every occurrence: the first two conjuncts show the correct
direct-text and genuine-suffix behaviour, the third evaluates the fallback
on a full text with an interior `" Nutrition"`, which the claim says is left
unchanged but the code rewrites to `"My Kitchen"`. -/
theorem C8_name_extraction_behavior :
    labelName { directText := some "Taco Bell", fullText := "Taco Bell Nutrition" } =
      some "Taco Bell" ∧
    labelName { directText := none, fullText := "Taco Bell Nutrition" } =
      some "Taco Bell" ∧
    labelName { directText := none, fullText := "My Nutrition Kitchen" } =
      some "My Kitchen" :=
  ⟨rfl, rfl, rfl⟩

/-- Counterexample for C9 as frozen: with the only restaurant's page fetch
failing, the recorded placeholder uses the key `restaurant_logo` (first
conjunct), not the key `logo_url` the claim names (second conjunct). -/
theorem C9_counterexample :
    dictGet "A" (menuScrape "" fetchDown c9Restaurants) =
      some (JVal.obj [("url", JVal.str "http://a"), ("restaurant_logo", JVal.str ""),
        ("items", JVal.list []), ("error", JVal.str "connection refused")]) ∧
    dictGet "A" (menuScrape "" fetchDown c9Restaurants) ≠
      some (JVal.obj [("url", JVal.str "http://a"), ("logo_url", JVal.str ""),
        ("items", JVal.list []), ("error", JVal.str "connection refused")]) := by
  refine ⟨rfl, fun h => ?_⟩
  have h1 : dictGet "A" (menuScrape "" fetchDown c9Restaurants) =
      some (JVal.obj [("url", JVal.str "http://a"), ("restaurant_logo", JVal.str ""),
        ("items", JVal.list []), ("error", JVal.str "connection refused")]) := rfl
  rw [h1] at h
  have h2 := Option.some.inj h
  have h3 := congrArg (fun j => jStrAt j "logo_url") h2
  exact absurd h3 (by decide)

/-- C9 (amended): every input restaurant with non-empty name and URL keeps
its name as a key of the stage-2 output; on a successful fetch the value
holds the scraped logo and items, and on a per-restaurant exception it is
the placeholder `{url, restaurant_logo: "", items: [], error: message}`
(the placeholder's logo key is `restaurant_logo`, not `logo_url`). -/
theorem C9_restaurant_key_preserved (base : String) (fetch : String → Except String Doc)
    (restaurants : List Obj) (r : Obj) (hmem : r ∈ restaurants)
    (hname : getStr r "name" ≠ "") (hurl : getStr r "url" ≠ "")
    (hnodup : (validRestNames restaurants).Nodup) :
    dictGet (getStr r "name") (menuScrape base fetch restaurants) =
      some (menuEntryFor base fetch (getStr r "url")) :=
  menuScrapeFold_entry base fetch r hname hurl restaurants hmem hnodup []

/-- Witness for C9: the single failing restaurant keeps its key, mapped to
the `restaurant_logo` placeholder. -/
theorem C9_restaurant_key_preserved_witness :
    dictGet "A" (menuScrape "" fetchDown c9Restaurants) =
      some (menuEntryFor "" fetchDown "http://a") := by
  have h := C9_restaurant_key_preserved "" fetchDown c9Restaurants
    [("name", JVal.str "A"), ("url", JVal.str "http://a")]
    (List.mem_singleton.2 rfl) (by decide) (by decide) (by decide)
  simpa using h

/-- C10: an item whose `url` key is missing or empty is returned unchanged
by `process_menu_item` — for every fetch oracle, so no fetch result can
influence the output — and no `nutritional_values`, `allergens` or
`ingredients` key is added. -/
theorem C10_item_without_url_unchanged (base : String)
    (fetch : String → Except String Doc) (item : Obj)
    (h : dictGet "url" item = none ∨ dictGet "url" item = some (JVal.str "")) :
    process_menu_item_inner base fetch item = Except.ok item ∧
    process_menu_item base fetch item = item := by
  have hu : getStr item "url" = "" := by
    rcases h with h | h <;> simp [getStr, h]
  have h1 : process_menu_item_inner base fetch item = Except.ok item := by
    unfold process_menu_item_inner
    rw [hu]
    simp
  exact ⟨h1, by simp only [process_menu_item, h1]⟩

/-- Witness for C10: a URL-less item passes through unchanged, even when the
oracle would fail every fetch. -/
theorem C10_item_without_url_unchanged_witness :
    process_menu_item "" fetchDown [("name", JVal.str "Fries")] =
      [("name", JVal.str "Fries")] :=
  (C10_item_without_url_unchanged "" fetchDown [("name", JVal.str "Fries")]
    (Or.inl rfl)).2

end FoodScraper
